import Mathlib

/-!
Verification of the Genesis DB Python client (src/genesisdb/client.py).

The development shallowly embeds the request-building, NDJSON decoding,
event-adapter and transport-facing logic of the client.  Python strings are
modelled as `List Char`, byte streams as `List Nat` (each entry < 256),
Python `json.loads` as a total recursive parser producing `JsonValue`,
Python dictionaries as association lists with insertion-order/replace
semantics, and the `cloudevents.http.CloudEvent` constructor as a partial
function that fails exactly when the library would raise.

Numbers are modelled exactly as a decimal mantissa/exponent pair as read
from the token (Python would use binary floats for non-integers; no
property below compares fractional values).  Lone
surrogate escapes, which CPython keeps as unpaired surrogate code units,
are mapped to the null character since Lean `Char` cannot hold them; no
property below depends on that corner.
-/

/-- Python strings are modelled as lists of characters. -/
abbrev Str := List Char

/-- Shorthand turning a Lean string literal into the `List Char` model. -/
def chars (s : String) : Str := s.data

/-- The whitespace class used by Python `str.strip()` (ASCII part; the
claims never involve non-ASCII whitespace). -/
def pyWs (c : Char) : Bool :=
  c = ' ' || c = '\t' || c = '\n' || c = '\r' || c.toNat = 11 || c.toNat = 12

/-- Model of Python `str.lstrip()`. -/
def lstrip (s : Str) : Str := s.dropWhile pyWs

/-- Model of Python `str.rstrip()`. -/
def rstrip (s : Str) : Str := (s.reverse.dropWhile pyWs).reverse

/-- Model of Python `str.strip()`. -/
def pystrip (s : Str) : Str := lstrip (rstrip s)

/-- Model of Python `str.split('\n')`: the list of segments between
newlines; always non-empty, no segment contains a newline. -/
def splitNl : Str → List Str
  | [] => [[]]
  | c :: cs =>
    match splitNl cs with
    | [] => [[]]
    | l :: ls => if c = '\n' then [] :: l :: ls else (c :: l) :: ls

/-- JSON values as produced by Python `json.loads` with default settings.
Objects carry their fields in insertion order with duplicate keys already
collapsed (last value wins), mirroring Python `dict`.  `nan`, `inf` and
`neginf` model the non-standard `NaN` / `Infinity` / `-Infinity` literals
CPython accepts by default. -/
inductive JsonValue where
  | null
  | bool (b : Bool)
  | num (mant : Int) (exp10 : Int)
  | str (s : Str)
  | arr (elems : List JsonValue)
  | obj (fields : List (Str × JsonValue))
  | nan
  | inf
  | neginf
deriving Repr

/-- Lookup in a Python dictionary modelled as an association list. -/
def pyLookup (k : Str) : List (Str × JsonValue) → Option JsonValue
  | [] => none
  | (k2, v) :: rest => if k2 = k then some v else pyLookup k rest

/-- Assignment `d[k] = v` on a Python dictionary: an existing key keeps its
position but gets the new value, a new key is appended. -/
def dictInsert (d : List (Str × JsonValue)) (k : Str) (v : JsonValue) :
    List (Str × JsonValue) :=
  if (pyLookup k d).isSome then d.map (fun p => if p.1 = k then (k, v) else p)
  else d ++ [(k, v)]

/-- Build a Python dictionary from a sequence of key/value pairs. -/
def pyDict (pairs : List (Str × JsonValue)) : List (Str × JsonValue) :=
  pairs.foldl (fun d p => dictInsert d p.1 p.2) []

/-- The whitespace characters skipped by the CPython JSON scanner. -/
def jsonWs (c : Char) : Bool := c = ' ' || c = '\t' || c = '\n' || c = '\r'

/-- Skip JSON whitespace. -/
def skipWs (s : Str) : Str := s.dropWhile jsonWs

/-- ASCII decimal digit test. -/
def isDigit (c : Char) : Bool := '0' ≤ c && c ≤ '9'

/-- Numeric value of a decimal digit string. -/
def digitsToNat (s : Str) : Nat := s.foldl (fun a c => a * 10 + (c.toNat - 48)) 0

/-- Numeric value of a hexadecimal digit, if any. -/
def hexVal (c : Char) : Option Nat :=
  if '0' ≤ c && c ≤ '9' then some (c.toNat - 48)
  else if 'a' ≤ c && c ≤ 'f' then some (c.toNat - 87)
  else if 'A' ≤ c && c ≤ 'F' then some (c.toNat - 55)
  else none

/-- Combine four hex digits into a code point. -/
def hex4 (a b c d : Char) : Option Nat := do
  let x1 ← hexVal a
  let x2 ← hexVal b
  let x3 ← hexVal c
  let x4 ← hexVal d
  pure (((x1 * 16 + x2) * 16 + x3) * 16 + x4)

/-- Translation of a single-character JSON escape. -/
def escChar (c : Char) : Option Char :=
  if c = '"' then some '"'
  else if c = '\\' then some '\\'
  else if c = '/' then some '/'
  else if c = 'b' then some (Char.ofNat 8)
  else if c = 'f' then some (Char.ofNat 12)
  else if c = 'n' then some '\n'
  else if c = 'r' then some '\r'
  else if c = 't' then some '\t'
  else none

/-- Parse the body of a JSON string after the opening quote (strict mode:
raw control characters are rejected, like CPython).  Returns the decoded
content and the input after the closing quote.  Surrogate pairs written as
two consecutive sixteen-bit escapes are combined as CPython does. -/
def parseStringBody : Nat → Str → Option (Str × Str)
  | 0, _ => none
  | _ + 1, [] => none
  | f + 1, c :: rest =>
    if c = '"' then some ([], rest)
    else if c = '\\' then
      match rest with
      | [] => none
      | e :: rest2 =>
        if e = 'u' then
          match rest2 with
          | h1 :: h2 :: h3 :: h4 :: rest3 =>
            match hex4 h1 h2 h3 h4 with
            | none => none
            | some n =>
              if 0xD800 ≤ n ∧ n < 0xDC00 then
                match rest3 with
                | '\\' :: 'u' :: g1 :: g2 :: g3 :: g4 :: rest4 =>
                  match hex4 g1 g2 g3 g4 with
                  | some m =>
                    if 0xDC00 ≤ m ∧ m < 0xE000 then
                      (parseStringBody f rest4).map
                        (fun p => (Char.ofNat (0x10000 + (n - 0xD800) * 0x400 + (m - 0xDC00)) :: p.1, p.2))
                    else
                      (parseStringBody f rest3).map (fun p => (Char.ofNat n :: p.1, p.2))
                  | none =>
                    (parseStringBody f rest3).map (fun p => (Char.ofNat n :: p.1, p.2))
                | _ =>
                  (parseStringBody f rest3).map (fun p => (Char.ofNat n :: p.1, p.2))
              else
                (parseStringBody f rest3).map (fun p => (Char.ofNat n :: p.1, p.2))
          | _ => none
        else
          match escChar e with
          | none => none
          | some d => (parseStringBody f rest2).map (fun p => (d :: p.1, p.2))
    else if c.toNat < 0x20 then none
    else (parseStringBody f rest).map (fun p => (c :: p.1, p.2))

/-- Split a leading run of decimal digits from the input. -/
def takeDigits (s : Str) : Str × Str := (s.takeWhile isDigit, s.dropWhile isDigit)

/-- Parse a JSON number at the head of the input, following the CPython
regex `-?(?:0|[1-9]\d*)(?:\.\d+)?(?:[eE][-+]?\d+)?`.  The value is kept
exactly as mantissa times ten to the exponent. -/
def parseNumber (s : Str) : Option (JsonValue × Str) :=
  let signAndRest : Bool × Str :=
    match s with
    | '-' :: r => (true, r)
    | _ => (false, s)
  let neg := signAndRest.1
  let s1 := signAndRest.2
  match s1 with
  | [] => none
  | c :: cs =>
    if ¬ isDigit c then none
    else
      let ipRest : Str × Str := if c = '0' then ([c], cs) else takeDigits s1
      let ip := ipRest.1
      let r1 := ipRest.2
      let fpRest : Str × Str :=
        match r1 with
        | '.' :: r =>
          let p := takeDigits r
          if p.1 = [] then ([], r1) else p
        | _ => ([], r1)
      let fp := fpRest.1
      let r2 := fpRest.2
      let exRest : Int × Str :=
        match r2 with
        | e :: r =>
          if e = 'e' ∨ e = 'E' then
            let sgnRest : Int × Str :=
              match r with
              | '+' :: r3 => (1, r3)
              | '-' :: r3 => (-1, r3)
              | _ => (1, r)
            let p := takeDigits sgnRest.2
            if p.1 = [] then (0, r2) else (sgnRest.1 * (digitsToNat p.1 : Int), p.2)
          else (0, r2)
        | [] => (0, r2)
      let mant : Int := (if neg then -1 else 1) * (digitsToNat (ip ++ fp) : Int)
      some (JsonValue.num mant (exRest.1 - (fp.length : Int)), exRest.2)

mutual

/-- Parse one JSON value at the head of the input (fuelled recursion; the
top level supplies fuel larger than the input length, which is always
sufficient because every recursive call consumes input). -/
def parseValue : Nat → Str → Option (JsonValue × Str)
  | 0, _ => none
  | f + 1, s =>
    match s with
    | 'n' :: 'u' :: 'l' :: 'l' :: r => some (.null, r)
    | 't' :: 'r' :: 'u' :: 'e' :: r => some (.bool true, r)
    | 'f' :: 'a' :: 'l' :: 's' :: 'e' :: r => some (.bool false, r)
    | 'N' :: 'a' :: 'N' :: r => some (.nan, r)
    | 'I' :: 'n' :: 'f' :: 'i' :: 'n' :: 'i' :: 't' :: 'y' :: r => some (.inf, r)
    | '-' :: 'I' :: 'n' :: 'f' :: 'i' :: 'n' :: 'i' :: 't' :: 'y' :: r => some (.neginf, r)
    | '"' :: r => (parseStringBody (r.length + 1) r).map (fun p => (.str p.1, p.2))
    | '[' :: r =>
      match skipWs r with
      | ']' :: r2 => some (.arr [], r2)
      | r2 => (parseItems f r2).map (fun p => (.arr p.1, p.2))
    | '{' :: r =>
      match skipWs r with
      | '}' :: r2 => some (.obj [], r2)
      | r2 => (parseMembers f r2).map (fun p => (.obj (pyDict p.1), p.2))
    | _ => parseNumber s

/-- Parse the comma-separated items of a non-empty JSON array, ending at
the closing bracket. -/
def parseItems : Nat → Str → Option (List JsonValue × Str)
  | 0, _ => none
  | f + 1, s =>
    match parseValue f s with
    | none => none
    | some (v, r) =>
      match skipWs r with
      | ',' :: r2 => (parseItems f (skipWs r2)).map (fun p => (v :: p.1, p.2))
      | ']' :: r2 => some ([v], r2)
      | _ => none

/-- Parse the comma-separated members of a non-empty JSON object, ending
at the closing brace. -/
def parseMembers : Nat → Str → Option (List (Str × JsonValue) × Str)
  | 0, _ => none
  | f + 1, s =>
    match s with
    | '"' :: r =>
      match parseStringBody (r.length + 1) r with
      | none => none
      | some (k, r1) =>
        match skipWs r1 with
        | ':' :: r2 =>
          match parseValue f (skipWs r2) with
          | none => none
          | some (v, r3) =>
            match skipWs r3 with
            | ',' :: r4 => (parseMembers f (skipWs r4)).map (fun p => ((k, v) :: p.1, p.2))
            | '}' :: r4 => some ([(k, v)], r4)
            | _ => none
        | _ => none
    | _ => none

end

/-- Model of Python `json.loads`: parse exactly one JSON document with
optional surrounding whitespace; anything else (including trailing data)
yields `none`, i.e. `json.JSONDecodeError`. -/
def json_loads (s : Str) : Option JsonValue :=
  let s1 := skipWs s
  match parseValue (s1.length + 1) s1 with
  | none => none
  | some (v, rest) => if skipWs rest = [] then some v else none

/-- One CloudEvent as constructed by `cloudevents.http.CloudEvent`: the
normalized (lower-cased, `specversion`-defaulted) attribute dictionary.
The nondeterministic `id`/`time` defaults the library would add are left
out of the model; no property below inspects them. -/
structure CEvent where
  attrs : List (Str × JsonValue)

/-- Model of the `CloudEvent(json_data)` constructor call appearing in
`stream_events` (line 109) and `observe_events` (line 408): lower-case the
attribute keys, default `specversion` to "1.0", then require a known
`specversion` and the presence of `source` and `type`; `none` models the
constructor raising.  A non-object argument also raises (`.items()` on a
non-dict). -/
def cloudEventOfJson : JsonValue → Option CEvent
  | .obj kvs =>
    let a := pyDict (kvs.map (fun p => (p.1.map Char.toLower, p.2)))
    let a2 :=
      if (pyLookup (chars "specversion") a).isSome then a
      else a ++ [(chars "specversion", .str (chars "1.0"))]
    match pyLookup (chars "specversion") a2 with
    | some (.str sv) =>
      if sv = chars "1.0" ∨ sv = chars "0.3" then
        if (pyLookup (chars "source") a2).isSome && (pyLookup (chars "type") a2).isSome then
          some ⟨a2⟩
        else none
      else none
    | _ => none
  | _ => none

/-- The keepalive test of `observe_events` (line 405):
`json_data.get('payload') == '' and len(json_data) == 1`. -/
def isKeepalive : JsonValue → Bool
  | .obj kvs =>
    (match pyLookup (chars "payload") kvs with
     | some (.str s) => s = []
     | _ => false) && kvs.length = 1
  | _ => false

/-- A log line printed on the error side channel. -/
inductive LogEntry where
  | apiError (status : Nat) (reason : Str)
  | parseError (line : Str)
  | ctorError
  | generalError
deriving Repr, DecidableEq

/-- The whole-body NDJSON decode loop shared by `stream_events`
(lines 102–113, decode part) and `q` (lines 302–312): strip each line,
skip blanks, parse the rest, logging and skipping lines that fail to
parse.  Returns decoded values in order plus the error log. -/
def decodeLines : List Str → List JsonValue × List LogEntry
  | [] => ([], [])
  | l :: ls =>
    let line := pystrip l
    if line = [] then decodeLines ls
    else
      match json_loads line with
      | none =>
        let p := decodeLines ls
        (p.1, .parseError line :: p.2)
      | some v =>
        let p := decodeLines ls
        (v :: p.1, p.2)

/-- The body handling of `q` (lines 296–314): empty or whitespace-only
bodies short-circuit to no results, otherwise the stripped body is split
on newlines and decoded line by line. -/
def qProcessBody (body : Str) : List JsonValue × List LogEntry :=
  if pystrip body = [] then ([], [])
  else decodeLines (splitNl (pystrip body))

/-- The decode loop of `stream_events` (lines 101–115): like `decodeLines`
but every parsed value is passed to the `CloudEvent` constructor, whose
failure is NOT caught by the `except json.JSONDecodeError` handler and so
aborts the loop (the offending value is carried in the error). -/
def streamDecodeLines : List Str → List LogEntry × Except JsonValue (List CEvent)
  | [] => ([], .ok [])
  | l :: ls =>
    let line := pystrip l
    if line = [] then streamDecodeLines ls
    else
      match json_loads line with
      | none =>
        let p := streamDecodeLines ls
        (.parseError line :: p.1, p.2)
      | some v =>
        match cloudEventOfJson v with
        | none => ([], .error v)
        | some e =>
          let p := streamDecodeLines ls
          (p.1, p.2.map (e :: ·))

/-- The body handling of `stream_events` (lines 96–115). -/
def streamEventsBodyRun (body : Str) : List LogEntry × Except JsonValue (List CEvent) :=
  if pystrip body = [] then ([], .ok [])
  else streamDecodeLines (splitNl (pystrip body))

/-- The incremental line extraction of `observe_events` (lines 388–397):
given the current buffer, repeatedly split off the prefix up to the next
newline; returns the complete lines and the remaining buffer. -/
def extractLines : Str → List Str × Str
  | [] => ([], [])
  | c :: cs =>
    let p := extractLines cs
    if c = '\n' then ([] :: p.1, p.2)
    else
      match p.1 with
      | [] => ([], c :: p.2)
      | l :: ls => ((c :: l) :: ls, p.2)

/-- The parsed JSON value a single complete line contributes in
`observe_events` (lines 394–402): strip, skip blanks, remove an SSE-style
six-character prefix, parse. -/
def observeLineJson (l : Str) : Option JsonValue :=
  let line := pystrip l
  if line = [] then none
  else json_loads (if line.take 6 = chars "data: " then line.drop 6 else line)

/-- The full outcome of processing one complete line in `observe_events`
(lines 394–414): skipped blank (`none`), decode error, keepalive skip,
adapter (CloudEvent constructor) error, or a yielded event. -/
inductive ObsOut where
  | ev (e : CEvent)
  | keepalive
  | decodeError (line : Str)
  | ctorError (v : JsonValue)

/-- Line processing of `observe_events`, lines 394–414. -/
def observeLineOut (l : Str) : Option ObsOut :=
  let line := pystrip l
  if line = [] then none
  else
    match json_loads (if line.take 6 = chars "data: " then line.drop 6 else line) with
    | none => some (.decodeError line)
    | some v =>
      if isKeepalive v then some .keepalive
      else
        match cloudEventOfJson v with
        | none => some (.ctorError v)
        | some e => some (.ev e)

/-- The event an `ObsOut` contributes to the async generator. -/
def outEvent : ObsOut → Option CEvent
  | .ev e => some e
  | _ => none

/-- Events yielded for a list of complete lines in `observe_events`. -/
def linesEvents (ls : List Str) : List CEvent :=
  (ls.filterMap observeLineOut).filterMap outEvent

/-- The chunk loop of `observe_events` (lines 388–397) at the text level:
feed each chunk into the buffer, extract complete lines, and collect the
parsed JSON values of those lines; the final buffer contents are
discarded when the stream ends. -/
def observeFeedVals (buf : Str) : List Str → List JsonValue
  | [] => []
  | c :: cs =>
    let p := extractLines (buf ++ c)
    p.1.filterMap observeLineJson ++ observeFeedVals p.2 cs

/-- Parsed JSON values emitted by `observe_events` for a chunked text
stream. -/
def observeValues (chunks : List Str) : List JsonValue :=
  observeFeedVals [] chunks

/-- Strict UTF-8 decoding of one byte chunk, as performed by
`chunk.decode('utf-8')` on line 390: incomplete or malformed sequences
raise (`none`). -/
def utf8Decode : List Nat → Option Str
  | [] => some []
  | b :: bs =>
    if b < 0x80 then (utf8Decode bs).map (Char.ofNat b :: ·)
    else if 0xC2 ≤ b ∧ b ≤ 0xDF then
      match bs with
      | b2 :: bs2 =>
        if 0x80 ≤ b2 ∧ b2 ≤ 0xBF then
          (utf8Decode bs2).map (Char.ofNat ((b - 0xC0) * 64 + (b2 - 0x80)) :: ·)
        else none
      | [] => none
    else if 0xE0 ≤ b ∧ b ≤ 0xEF then
      match bs with
      | b2 :: b3 :: bs3 =>
        let lo2 : Nat := if b = 0xE0 then 0xA0 else 0x80
        let hi2 : Nat := if b = 0xED then 0x9F else 0xBF
        if lo2 ≤ b2 ∧ b2 ≤ hi2 ∧ 0x80 ≤ b3 ∧ b3 ≤ 0xBF then
          (utf8Decode bs3).map
            (Char.ofNat ((b - 0xE0) * 4096 + (b2 - 0x80) * 64 + (b3 - 0x80)) :: ·)
        else none
      | _ => none
    else if 0xF0 ≤ b ∧ b ≤ 0xF4 then
      match bs with
      | b2 :: b3 :: b4 :: bs4 =>
        let lo2 : Nat := if b = 0xF0 then 0x90 else 0x80
        let hi2 : Nat := if b = 0xF4 then 0x8F else 0xBF
        if lo2 ≤ b2 ∧ b2 ≤ hi2 ∧ 0x80 ≤ b3 ∧ b3 ≤ 0xBF ∧ 0x80 ≤ b4 ∧ b4 ≤ 0xBF then
          (utf8Decode bs4).map
            (Char.ofNat ((b - 0xF0) * 262144 + (b2 - 0x80) * 4096 + (b3 - 0x80) * 64 + (b4 - 0x80)) :: ·)
        else none
      | _ => none
    else none

/-- The chunk loop of `observe_events` at the byte level: each arriving
byte chunk is decoded independently with strict UTF-8 (line 390); a chunk
that fails to decode raises, aborting the generator after the values
already yielded (`true` in the second component records the crash). -/
def observeBytes (buf : Str) : List (List Nat) → List JsonValue × Bool
  | [] => ([], false)
  | b :: bs =>
    match utf8Decode b with
    | none => ([], true)
    | some txt =>
      let p := extractLines (buf ++ txt)
      let rest := observeBytes p.2 bs
      (p.1.filterMap observeLineJson ++ rest.1, rest.2)

/-- An HTTP response as observed through httpx. -/
structure HttpResponse where
  status : Nat
  reason : Str
  body : Str

/-- httpx `response.is_success`, the test behind `raise_for_status`. -/
def is2xx (s : Nat) : Bool := 200 ≤ s && s < 300

/-- The typed failures an operation can propagate. -/
inductive OpError where
  | httpStatus (status : Nat) (reason : Str)
  | appError (v : JsonValue)
  | keyError (k : Str)
  | typeError
  | unicodeError
deriving Repr

/-- The exceptions the commit-event formatting loop can raise before any
request is made: `KeyError` on a missing required key, or `TypeError`
from the membership test / indexing on a non-dict `options` value. -/
inductive PyExc where
  | keyError (k : Str)
  | typeError
deriving Repr

/-- Embed a formatting exception into the operation error type. -/
def opErrorOfExc : PyExc → OpError
  | .keyError k => .keyError k
  | .typeError => .typeError

/-- Python `needle in hay` on strings: substring containment. -/
def strContains (needle hay : Str) : Bool :=
  (List.range (hay.length + 1)).any (fun i => (hay.drop i).take needle.length = needle)

/-- Observable trace of one client call: how many requests reached the
transport, the JSON request body sent (if any), the error-channel log, and
the outcome. -/
structure OpTrace (α : Type) where
  requests : Nat
  sent : Option JsonValue
  logs : List LogEntry
  result : Except OpError α

/-- The snake_case → camelCase option translation block that appears
verbatim in `stream_events` (lines 74–81) and `observe_events`
(lines 366–373). -/
def convertOptions (opts : List (Str × JsonValue)) : List (Str × JsonValue) :=
  (match pyLookup (chars "lower_bound") opts with
   | some v => [(chars "lowerBound", v)]
   | none => []) ++
  (match pyLookup (chars "include_lower_bound_event") opts with
   | some v => [(chars "includeLowerBoundEvent", v)]
   | none => []) ++
  (match pyLookup (chars "latest_by_event_type") opts with
   | some v => [(chars "latestByEventType", v)]
   | none => [])

/-- Request body of `stream_events` (lines 72–82): `{"subject": ...}` plus
an `options` object only when the caller passed a non-empty (truthy)
options dictionary. -/
def streamRequestBody (subject : Str) (options : Option (List (Str × JsonValue))) : JsonValue :=
  .obj ([(chars "subject", .str subject)] ++
    match options with
    | none => []
    | some [] => []
    | some opts => [(chars "options", .obj (convertOptions opts))])

/-- Request body of `observe_events` (lines 364–374); the construction is
the same as in `stream_events`. -/
def observeRequestBody (subject : Str) (options : Option (List (Str × JsonValue))) : JsonValue :=
  .obj ([(chars "subject", .str subject)] ++
    match options with
    | none => []
    | some [] => []
    | some opts => [(chars "options", .obj (convertOptions opts))])

/-- The `stream_events` operation (lines 53–122) against a transport
modelled as a source of responses indexed by request number; the code
issues exactly one POST (`t 0`). -/
def streamEventsOp (subject : Str) (options : Option (List (Str × JsonValue)))
    (t : Nat → HttpResponse) : OpTrace (List CEvent) :=
  let body := streamRequestBody subject options
  let resp := t 0
  if is2xx resp.status then
    let p := streamEventsBodyRun resp.body
    match p.2 with
    | .ok es => ⟨1, some body, p.1, .ok es⟩
    | .error v => ⟨1, some body, p.1 ++ [.generalError], .error (.appError v)⟩
  else ⟨1, some body, [.apiError resp.status resp.reason], .error (.httpStatus resp.status resp.reason)⟩

/-- The `q` operation (lines 273–321). -/
def qOp (query : Str) (t : Nat → HttpResponse) : OpTrace (List JsonValue) :=
  let body := JsonValue.obj [(chars "query", .str query)]
  let resp := t 0
  if is2xx resp.status then
    let p := qProcessBody resp.body
    ⟨1, some body, p.2, .ok p.1⟩
  else ⟨1, some body, [.apiError resp.status resp.reason], .error (.httpStatus resp.status resp.reason)⟩

/-- The `erase_data` operation (lines 193–219). -/
def eraseDataOp (subject : Str) (t : Nat → HttpResponse) : OpTrace Unit :=
  let body := JsonValue.obj [(chars "subject", .str subject)]
  let resp := t 0
  if is2xx resp.status then ⟨1, some body, [], .ok ()⟩
  else ⟨1, some body, [.apiError resp.status resp.reason], .error (.httpStatus resp.status resp.reason)⟩

/-- The `audit` operation (lines 221–245); a GET with no JSON body. -/
def auditOp (t : Nat → HttpResponse) : OpTrace Str :=
  let resp := t 0
  if is2xx resp.status then ⟨1, none, [], .ok resp.body⟩
  else ⟨1, none, [.apiError resp.status resp.reason], .error (.httpStatus resp.status resp.reason)⟩

/-- The `ping` operation (lines 247–271); a GET with no JSON body. -/
def pingOp (t : Nat → HttpResponse) : OpTrace Str :=
  let resp := t 0
  if is2xx resp.status then ⟨1, none, [], .ok resp.body⟩
  else ⟨1, none, [.apiError resp.status resp.reason], .error (.httpStatus resp.status resp.reason)⟩

/-- Formatting of one commit event (lines 157–169): the four required
keys are read with `event[...]`, so a missing key raises `KeyError`
(modelled by `.error` carrying the first missing key in evaluation
order), and the wire event carries exactly those four fields plus a
translated `options` object when the caller set one.  The membership test
`'store_data_as_reference' in event['options']` (line 166) raises
`TypeError` when the options value is `None`, a boolean or a number; on a
string it is a substring test and on a list an element test, and a hit
then raises `TypeError` at the indexing `event['options'][...]`. -/
def formatEvent (e : List (Str × JsonValue)) : Except PyExc (List (Str × JsonValue)) :=
  match pyLookup (chars "source") e with
  | none => .error (.keyError (chars "source"))
  | some vsource =>
    match pyLookup (chars "subject") e with
    | none => .error (.keyError (chars "subject"))
    | some vsubject =>
      match pyLookup (chars "type") e with
      | none => .error (.keyError (chars "type"))
      | some vtype =>
        match pyLookup (chars "data") e with
        | none => .error (.keyError (chars "data"))
        | some vdata =>
          let base := [(chars "source", vsource), (chars "subject", vsubject),
                       (chars "type", vtype), (chars "data", vdata)]
          match pyLookup (chars "options") e with
          | none => .ok base
          | some vopts =>
            match vopts with
            | .obj o =>
              match pyLookup (chars "store_data_as_reference") o with
              | some v => .ok (base ++ [(chars "options",
                  .obj [(chars "storeDataAsReference", v)])])
              | none => .ok (base ++ [(chars "options", .obj [])])
            | .str s =>
              if strContains (chars "store_data_as_reference") s then .error .typeError
              else .ok (base ++ [(chars "options", .obj [])])
            | .arr xs =>
              if xs.any (fun x => match x with
                  | .str s2 => s2 = chars "store_data_as_reference"
                  | _ => false) then .error .typeError
              else .ok (base ++ [(chars "options", .obj [])])
            | _ => .error .typeError

/-- The formatting loop over all commit events (lines 156–169); the first
raised exception aborts the whole call before any request is made. -/
def formatEvents : List (List (Str × JsonValue)) → Except PyExc (List JsonValue)
  | [] => .ok []
  | e :: es =>
    match formatEvent e with
    | .error exc => .error exc
    | .ok fe => (formatEvents es).map (fun rest => JsonValue.obj fe :: rest)

/-- An event whose `options` value (if any) survives line 166 without a
`TypeError`: absent, a dict, or a string/list in which the membership
test for the key comes out false. -/
def optionsMembershipOk (e : List (Str × JsonValue)) : Bool :=
  match pyLookup (chars "options") e with
  | none => true
  | some (.obj _) => true
  | some (.str s) => ! strContains (chars "store_data_as_reference") s
  | some (.arr xs) => ! xs.any (fun x => match x with
      | .str s2 => s2 = chars "store_data_as_reference"
      | _ => false)
  | some _ => false

/-- Commit request body (lines 171–174): the formatted events, plus the
preconditions only when a non-empty list was passed. -/
def commitRequestBody (fes : List JsonValue) (preconditions : Option (List JsonValue)) : JsonValue :=
  .obj ([(chars "events", .arr fes)] ++
    match preconditions with
    | some ps => if ps.length > 0 then [(chars "preconditions", .arr ps)] else []
    | none => [])

/-- The `commit_events` operation (lines 124–191).  Formatting happens
before the POST, so a `KeyError` or `TypeError` raised there leaves the
transport untouched. -/
def commitEventsOp (events : List (List (Str × JsonValue)))
    (preconditions : Option (List JsonValue)) (t : Nat → HttpResponse) : OpTrace Unit :=
  match formatEvents events with
  | .error exc => ⟨0, none, [], .error (opErrorOfExc exc)⟩
  | .ok fes =>
    let body := commitRequestBody fes preconditions
    let resp := t 0
    if is2xx resp.status then ⟨1, some body, [], .ok ()⟩
    else ⟨1, some body, [.apiError resp.status resp.reason], .error (.httpStatus resp.status resp.reason)⟩

/-- A streamed (observe) response: status line plus the arriving byte
chunks. -/
structure ObserveResponse where
  status : Nat
  reason : Str
  chunks : List (List Nat)

/-- Trace of one `observe_events` consumption: events actually yielded
before normal end or crash, plus the terminal error if any. -/
structure ObsTrace where
  requests : Nat
  sent : Option JsonValue
  logs : List LogEntry
  events : List CEvent
  err : Option OpError

/-- The log entry a processed line contributes (lines 410–414). -/
def obsLog : ObsOut → Option LogEntry
  | .decodeError l => some (.parseError l)
  | .ctorError _ => some .ctorError
  | _ => none

/-- The chunk loop of `observe_events` at the byte level with full
per-line outcomes (lines 388–414): a chunk failing strict UTF-8 decoding
aborts the generator after the lines already processed. -/
def observeBytesOuts (buf : Str) : List (List Nat) → List ObsOut × Bool
  | [] => ([], false)
  | b :: bs =>
    match utf8Decode b with
    | none => ([], true)
    | some txt =>
      let p := extractLines (buf ++ txt)
      let rest := observeBytesOuts p.2 bs
      (p.1.filterMap observeLineOut ++ rest.1, rest.2)

/-- The `observe_events` operation (lines 341–421) for a single streamed
response. -/
def observeEventsOp (subject : Str) (options : Option (List (Str × JsonValue)))
    (resp : ObserveResponse) : ObsTrace :=
  let body := observeRequestBody subject options
  if is2xx resp.status then
    let p := observeBytesOuts [] resp.chunks
    ⟨1, some body, p.1.filterMap obsLog ++ (if p.2 then [.generalError] else []),
      p.1.filterMap outEvent, if p.2 then some .unicodeError else none⟩
  else ⟨1, some body, [.apiError resp.status resp.reason], [],
    some (.httpStatus resp.status resp.reason)⟩

/-- The explicit configuration dictionary accepted by `Client.__init__`
(missing keys modelled as `none`; `dict.get` returns `None` for them). -/
structure PyConfig where
  api_url : Option String
  api_version : Option String
  auth_token : Option String

/-- Python `a or b` on strings: the empty string is falsy. -/
def pyOr (a b : String) : String := if a = "" then b else a

/-- The environment variables `_check_required_env` looks at
(lines 42–46). -/
def requiredEnvVars : List String :=
  ["GENESISDB_API_URL", "GENESISDB_API_VERSION", "GENESISDB_AUTH_TOKEN"]

/-- The api url after combining config and environment (lines 29, 33).
The environment is modelled as a total map where the empty string stands
for an unset variable (`os.getenv` with default `''`). -/
def resolvedApiUrl (config : Option PyConfig) (env : String → String) : String :=
  match config with
  | some c => pyOr (c.api_url.getD "") (env "GENESISDB_API_URL")
  | none => env "GENESISDB_API_URL"

/-- The api version after combining config and environment (lines 30, 34). -/
def resolvedApiVersion (config : Option PyConfig) (env : String → String) : String :=
  match config with
  | some c => pyOr (c.api_version.getD "") (env "GENESISDB_API_VERSION")
  | none => env "GENESISDB_API_VERSION"

/-- The auth token after combining config and environment (lines 31, 35). -/
def resolvedAuthToken (config : Option PyConfig) (env : String → String) : String :=
  match config with
  | some c => pyOr (c.auth_token.getD "") (env "GENESISDB_AUTH_TOKEN")
  | none => env "GENESISDB_AUTH_TOKEN"

/-- `Client.__init__` (lines 14–51): combine config with environment; if
any of the three resolved settings is empty, run `_check_required_env`,
which raises listing every UNSET ENVIRONMENT VARIABLE (not every missing
setting).  `.error` is the raised `ValueError` with its enumerated list;
`.ok` carries the constructed client settings. -/
def clientInit (config : Option PyConfig) (env : String → String) :
    Except (List String) (String × String × String) :=
  let url := resolvedApiUrl config env
  let ver := resolvedApiVersion config env
  let tok := resolvedAuthToken config env
  if url = "" ∨ ver = "" ∨ tok = "" then
    let missing := requiredEnvVars.filter (fun v => env v = "")
    if missing = [] then .ok (url, ver, tok) else .error missing
  else .ok (url, ver, tok)

/-! ### Lemmas about the streaming line extraction -/

theorem extractLines_nil : extractLines [] = ([], []) := rfl

theorem extractLines_fst_nil {s : Str} (h : (extractLines s).1 = []) :
    (extractLines s).2 = s := by
  induction s with
  | nil => rfl
  | cons c cs ih =>
    by_cases hc : c = '\n'
    · simp [extractLines, hc] at h
    · simp only [extractLines, hc, if_false] at h ⊢
      cases hp : (extractLines cs).1 with
      | nil => simp [hp, ih hp]
      | cons l ls => simp [hp] at h

theorem extractLines_no_nl {s : Str} (h : ∀ c ∈ s, c ≠ '\n') :
    extractLines s = ([], s) := by
  induction s with
  | nil => rfl
  | cons c cs ih =>
    have hc : c ≠ '\n' := h c (List.mem_cons_self c cs)
    have ihcs := ih (fun x hx => h x (List.mem_cons_of_mem c hx))
    simp [extractLines, hc, ihcs]

theorem extractLines_snd_no_nl (s : Str) : ∀ c ∈ (extractLines s).2, c ≠ '\n' := by
  induction s with
  | nil => simp [extractLines]
  | cons c cs ih =>
    by_cases hc : c = '\n'
    · simpa [extractLines, hc] using ih
    · simp only [extractLines, hc, if_false]
      cases hp : (extractLines cs).1 with
      | nil =>
        intro x hx
        rcases List.mem_cons.mp hx with h1 | h2
        · simpa [h1] using hc
        · exact ih x h2
      | cons l ls => simpa [hp] using ih

theorem extractLines_append (s t : Str) :
    extractLines (s ++ t) =
      ((extractLines s).1 ++ (extractLines ((extractLines s).2 ++ t)).1,
       (extractLines ((extractLines s).2 ++ t)).2) := by
  induction s with
  | nil => simp [extractLines]
  | cons c cs ih =>
    by_cases hc : c = '\n'
    · simp [extractLines, hc, ih]
    · simp only [List.cons_append, extractLines, hc, if_false]
      cases hp : (extractLines cs).1 with
      | nil =>
        have hb : (extractLines cs).2 = cs := extractLines_fst_nil hp
        simp only [ih, hp, List.nil_append, hb]
        cases hq : (extractLines (cs ++ t)).1 with
        | nil =>
          have h2 : (extractLines (cs ++ t)).2 = cs ++ t := extractLines_fst_nil hq
          simp [hq, h2, extractLines, hc]
        | cons m ms => simp [hq, extractLines, hc]
      | cons l ls => simp [ih, hp]

theorem observeFeedVals_join (chunks : List Str) (buf : Str) (h : ∀ c ∈ buf, c ≠ '\n') :
    observeFeedVals buf chunks =
      ((extractLines (buf ++ chunks.flatten)).1).filterMap observeLineJson := by
  induction chunks generalizing buf with
  | nil => simp [observeFeedVals, extractLines_no_nl h]
  | cons c cs ih =>
    simp only [observeFeedVals, List.flatten_cons]
    rw [ih ((extractLines (buf ++ c)).2) (extractLines_snd_no_nl _), ← List.append_assoc,
      extractLines_append (buf ++ c) cs.flatten]
    simp [List.filterMap_append]

theorem observeValues_eq_join (chunks : List Str) :
    observeValues chunks = observeValues [chunks.flatten] := by
  unfold observeValues
  rw [observeFeedVals_join chunks [] (by simp), observeFeedVals_join [chunks.flatten] [] (by simp)]
  simp

theorem observeBytes_decoded (chunks : List (List Nat)) (texts : List Str)
    (h : List.Forall₂ (fun b t => utf8Decode b = some t) chunks texts) :
    ∀ buf, observeBytes buf chunks = (observeFeedVals buf texts, false) := by
  induction h with
  | nil => intro buf; rfl
  | @cons b t bs ts hbt _ ih =>
    intro buf
    simp [observeBytes, hbt, observeFeedVals, ih]

/-- C1 is refuted at the byte level: the NDJSON byte stream for the single
line containing the object mapping "a" to the character U+00E9 (whose
UTF-8 encoding is the two bytes 195, 169) yields one parsed value when fed
as one chunk, but splitting it between the two bytes of that character
makes the independent per-chunk `chunk.decode('utf-8')` of line 390 raise,
so the split feeding yields no values (and crashes): chunk boundaries CAN
affect which values are emitted. -/
theorem claim1_counterexample :
    ([[123, 34, 97, 34, 58, 34, 195], [169, 34, 125, 10]] : List (List Nat)).flatten
        = [123, 34, 97, 34, 58, 34, 195, 169, 34, 125, 10] ∧
    observeBytes [] [[123, 34, 97, 34, 58, 34, 195, 169, 34, 125, 10]]
        = ([JsonValue.obj [(chars "a", JsonValue.str [Char.ofNat 233])]], false) ∧
    observeBytes [] [[123, 34, 97, 34, 58, 34, 195], [169, 34, 125, 10]] = ([], true) ∧
    (observeBytes [] [[123, 34, 97, 34, 58, 34, 195], [169, 34, 125, 10]]).1 ≠
      (observeBytes [] [[123, 34, 97, 34, 58, 34, 195, 169, 34, 125, 10]]).1 := by
  refine ⟨rfl, rfl, rfl, ?_⟩
  intro h
  have h0 : ([] : List JsonValue) =
      [JsonValue.obj [(chars "a", JsonValue.str [Char.ofNat 233])]] := h
  exact List.noConfusion h0

/-- C1 (amended): chunk boundaries never affect the emitted sequence of
parsed JSON values provided every byte chunk is individually valid UTF-8
(in particular for any splitting of an ASCII stream): feeding such chunks
equals feeding the whole decoded stream as one chunk, and no decode crash
occurs.  The unamended claim fails only for splits that cut a multibyte
UTF-8 sequence, because line 390 decodes each chunk independently. -/
theorem claim1 (chunks : List (List Nat)) (texts : List Str)
    (h : List.Forall₂ (fun b t => utf8Decode b = some t) chunks texts) :
    observeBytes [] chunks = (observeValues [texts.flatten], false) := by
  rw [observeBytes_decoded chunks texts h []]
  exact congrArg (fun l => (l, false)) (observeValues_eq_join texts)

/-- Witness for C1 (amended) at a concrete two-chunk splitting of the
stream containing the two lines with objects mapping "a" to 1 and 2. -/
theorem claim1_witness :
    List.Forall₂ (fun b t => utf8Decode b = some t)
      [[123, 34, 97, 34, 58, 49], [125, 10, 123, 34, 97, 34, 58, 50, 125, 10]]
      [chars "\x7b\"a\":1", chars "\x7d\n\x7b\"a\":2\x7d\n"] ∧
    observeBytes [] [[123, 34, 97, 34, 58, 49], [125, 10, 123, 34, 97, 34, 58, 50, 125, 10]] =
      (observeValues [(([chars "\x7b\"a\":1", chars "\x7d\n\x7b\"a\":2\x7d\n"] : List Str)).flatten], false) := by
  have hf : List.Forall₂ (fun b t => utf8Decode b = some t)
      [[123, 34, 97, 34, 58, 49], [125, 10, 123, 34, 97, 34, 58, 50, 125, 10]]
      [chars "\x7b\"a\":1", chars "\x7d\n\x7b\"a\":2\x7d\n"] := .cons rfl (.cons rfl .nil)
  exact ⟨hf, claim1 _ _ hf⟩

theorem decodeLines_badline (a b : List Str) (l : Str)
    (h1 : pystrip l ≠ []) (h2 : json_loads (pystrip l) = none) :
    decodeLines (a ++ l :: b) =
      ((decodeLines a).1 ++ (decodeLines b).1,
       (decodeLines a).2 ++ LogEntry.parseError (pystrip l) :: (decodeLines b).2) := by
  induction a with
  | nil => simp [decodeLines, h1, h2]
  | cons x xs ih =>
    simp only [List.cons_append, decodeLines]
    by_cases hx : pystrip x = []
    · simp [hx, ih]
    · cases hj : json_loads (pystrip x) <;> simp [hx, hj, ih]

/-- C2: a line that fails JSON parsing never stops the whole-body decode
loop: the values are those of the surrounding lines in order, the bad line
contributes no value and exactly one reported decode error; in particular
the three-line body with objects a=1, NOT-JSON, a=2 decodes to exactly the
two objects, in order, with one reported error. -/
theorem claim2 :
    (∀ (a b : List Str) (l : Str), pystrip l ≠ [] → json_loads (pystrip l) = none →
      decodeLines (a ++ l :: b) =
        ((decodeLines a).1 ++ (decodeLines b).1,
         (decodeLines a).2 ++ LogEntry.parseError (pystrip l) :: (decodeLines b).2)) ∧
    qProcessBody (chars "\x7b\"a\":1\x7d\nNOT-JSON\n\x7b\"a\":2\x7d") =
      ([JsonValue.obj [(chars "a", JsonValue.num 1 0)],
        JsonValue.obj [(chars "a", JsonValue.num 2 0)]],
       [LogEntry.parseError (chars "NOT-JSON")]) :=
  ⟨decodeLines_badline, rfl⟩

/-- Witness for C2 at the single bad line NOT-JSON between no other
lines. -/
theorem claim2_witness :
    pystrip (chars "NOT-JSON") ≠ [] ∧
    json_loads (pystrip (chars "NOT-JSON")) = none ∧
    decodeLines ([] ++ chars "NOT-JSON" :: []) =
      ((decodeLines []).1 ++ (decodeLines []).1,
       (decodeLines []).2 ++ LogEntry.parseError (pystrip (chars "NOT-JSON")) :: (decodeLines []).2) :=
  ⟨by decide, rfl, claim2.1 [] [] (chars "NOT-JSON") (by decide) rfl⟩

/-- C3: a decoded object whose only field is "payload" mapped to the empty
string is silently dropped by the keepalive check of observe_events
(line 405), yielding no Event; the same object in whole-body mode
(stream_events) is not dropped: it is handed to the CloudEvent
constructor like any other decoded value (and, lacking source and type,
makes that constructor raise, aborting the call with the value). -/
theorem claim3 :
    (∀ l : Str,
      observeLineJson l = some (JsonValue.obj [(chars "payload", JsonValue.str [])]) →
      observeLineOut l = some ObsOut.keepalive) ∧
    streamEventsBodyRun (chars "\x7b\"payload\": \"\"\x7d") =
      ([], .error (JsonValue.obj [(chars "payload", JsonValue.str [])])) := by
  constructor
  · intro l h
    unfold observeLineJson at h
    unfold observeLineOut
    by_cases hl : pystrip l = []
    · simp [hl] at h
    · simp only [hl, if_false] at h ⊢
      rw [h]
      rfl
  · rfl

/-- Witness for C3 at the line containing exactly the keepalive object. -/
theorem claim3_witness :
    observeLineJson (chars "\x7b\"payload\": \"\"\x7d") =
      some (JsonValue.obj [(chars "payload", JsonValue.str [])]) ∧
    observeLineOut (chars "\x7b\"payload\": \"\"\x7d") = some ObsOut.keepalive :=
  ⟨rfl, claim3.1 (chars "\x7b\"payload\": \"\"\x7d") rfl⟩

/-- C5: for any non-empty caller options dictionary, the request bodies of
stream_events and observe_events carry exactly the subject plus an options
object, and that object holds exactly the camelCase translations of the
snake_case fields the caller actually set, with the caller's values, and
no other keys; omitted fields do not appear at all. -/
theorem claim5 (subject : Str) (opts : List (Str × JsonValue)) (h : opts ≠ []) :
    streamRequestBody subject (some opts) =
      .obj [(chars "subject", .str subject), (chars "options", .obj (convertOptions opts))] ∧
    observeRequestBody subject (some opts) =
      .obj [(chars "subject", .str subject), (chars "options", .obj (convertOptions opts))] ∧
    (∀ k v, (k, v) ∈ convertOptions opts ↔
      ((k = chars "lowerBound" ∧ pyLookup (chars "lower_bound") opts = some v) ∨
       (k = chars "includeLowerBoundEvent" ∧
          pyLookup (chars "include_lower_bound_event") opts = some v) ∨
       (k = chars "latestByEventType" ∧
          pyLookup (chars "latest_by_event_type") opts = some v))) := by
  refine ⟨?_, ?_, ?_⟩
  · cases opts with
    | nil => exact absurd rfl h
    | cons p ps => rfl
  · cases opts with
    | nil => exact absurd rfl h
    | cons p ps => rfl
  · intro k v
    unfold convertOptions
    rcases h1 : pyLookup (chars "lower_bound") opts with _ | v1 <;>
      rcases h2 : pyLookup (chars "include_lower_bound_event") opts with _ | v2 <;>
        rcases h3 : pyLookup (chars "latest_by_event_type") opts with _ | v3 <;>
          simp [List.mem_append, Prod.ext_iff] <;> tauto

/-- Witness for C5 at the options dictionary from the spec example:
lower_bound "ID" and include_lower_bound_event true. -/
theorem claim5_witness :
    ([(chars "lower_bound", JsonValue.str (chars "ID")),
      (chars "include_lower_bound_event", JsonValue.bool true)] :
        List (Str × JsonValue)) ≠ [] ∧
    streamRequestBody (chars "/x")
        (some [(chars "lower_bound", JsonValue.str (chars "ID")),
               (chars "include_lower_bound_event", JsonValue.bool true)]) =
      .obj [(chars "subject", .str (chars "/x")),
            (chars "options", .obj (convertOptions
              [(chars "lower_bound", JsonValue.str (chars "ID")),
               (chars "include_lower_bound_event", JsonValue.bool true)]))] :=
  ⟨List.cons_ne_nil _ _,
   (claim5 (chars "/x") _ (List.cons_ne_nil _ _)).1⟩

/-- C6: a successful response whose body is empty or whitespace-only makes
stream_events and q return success with an empty result list, not an
error. -/
theorem claim6 (subject query : Str) (options : Option (List (Str × JsonValue)))
    (t : Nat → HttpResponse)
    (h2xx : is2xx (t 0).status = true) (hbody : pystrip (t 0).body = []) :
    (streamEventsOp subject options t).result = .ok [] ∧
    (qOp query t).result = .ok [] := by
  unfold streamEventsOp qOp
  simp [h2xx, streamEventsBodyRun, qProcessBody, hbody]

/-- Witness for C6 at a 200 response whose body is a blank line. -/
theorem claim6_witness :
    is2xx ((fun _ : Nat => HttpResponse.mk 200 [] (chars " \n ")) 0).status = true ∧
    pystrip ((fun _ : Nat => HttpResponse.mk 200 [] (chars " \n ")) 0).body = [] ∧
    (streamEventsOp [] none (fun _ => HttpResponse.mk 200 [] (chars " \n "))).result = .ok [] ∧
    (qOp [] (fun _ => HttpResponse.mk 200 [] (chars " \n "))).result = .ok [] := by
  have h := claim6 [] [] none (fun _ => HttpResponse.mk 200 [] (chars " \n ")) (by decide) (by decide)
  exact ⟨by decide, by decide, h.1, h.2⟩

theorem json_loads_nil : json_loads [] = none := rfl

theorem observe_ctorError_skip (a b : List Str) (l : Str) (v : JsonValue)
    (h : observeLineJson l = some v) (hk : isKeepalive v = false)
    (hc : cloudEventOfJson v = none) :
    observeLineOut l = some (ObsOut.ctorError v) ∧
    linesEvents (a ++ l :: b) = linesEvents a ++ linesEvents b := by
  have h1 : observeLineOut l = some (.ctorError v) := by
    unfold observeLineJson at h
    unfold observeLineOut
    by_cases hl : pystrip l = []
    · simp [hl] at h
    · simp only [hl, if_false] at h ⊢
      rw [h]
      simp [hk, hc]
  refine ⟨h1, ?_⟩
  unfold linesEvents
  simp [List.filterMap_append, List.filterMap_cons, h1, outEvent]

theorem streamDecodeLines_abort (pre post : List Str) (l : Str) (v : JsonValue)
    (hpre : ∀ l2 ∈ pre, pystrip l2 = [] ∨ json_loads (pystrip l2) = none ∨
        ∃ v2 e2, json_loads (pystrip l2) = some v2 ∧ cloudEventOfJson v2 = some e2)
    (hl : json_loads (pystrip l) = some v) (hv : cloudEventOfJson v = none) :
    (streamDecodeLines (pre ++ l :: post)).2 = .error v := by
  induction pre with
  | nil =>
    have hne : pystrip l ≠ [] := by
      intro h
      rw [h, json_loads_nil] at hl
      exact Option.noConfusion hl
    simp [streamDecodeLines, hne, hl, hv]
  | cons x xs ih =>
    have ih2 := ih (fun l2 h2 => hpre l2 (List.mem_cons_of_mem x h2))
    by_cases hx : pystrip x = []
    · simpa [streamDecodeLines, hx] using ih2
    · rcases hpre x (List.mem_cons_self x xs) with h0 | h0 | ⟨v2, e2, hp, he⟩
      · exact absurd h0 hx
      · simpa [streamDecodeLines, hx, h0] using ih2
      · simp only [List.cons_append, streamDecodeLines, hx, if_false, hp, he]
        rw [List.append_eq, ih2]
        rfl

/-- C4 (amended): in observe_events a decoded non-keepalive value rejected
by the CloudEvent constructor is turned into a reported constructor error
and skipped, and the events of the surrounding lines are still yielded
unchanged; in stream_events, however, such a value ABORTS the whole call
(the constructor exception is not caught by the decode-error handler), so
the remaining events are not returned there. -/
theorem claim4 :
    (∀ (a b : List Str) (l : Str) (v : JsonValue),
      observeLineJson l = some v → isKeepalive v = false → cloudEventOfJson v = none →
      observeLineOut l = some (ObsOut.ctorError v) ∧
      linesEvents (a ++ l :: b) = linesEvents a ++ linesEvents b) ∧
    (∀ (pre post : List Str) (l : Str) (v : JsonValue),
      (∀ l2 ∈ pre, pystrip l2 = [] ∨ json_loads (pystrip l2) = none ∨
          ∃ v2 e2, json_loads (pystrip l2) = some v2 ∧ cloudEventOfJson v2 = some e2) →
      json_loads (pystrip l) = some v → cloudEventOfJson v = none →
      (streamDecodeLines (pre ++ l :: post)).2 = .error v) :=
  ⟨observe_ctorError_skip, streamDecodeLines_abort⟩

/-- C4 as stated is refuted on stream_events: a 200 response whose first
line decodes to the object a=1 (rejected by the CloudEvent constructor)
makes the whole call fail with that value, even though the next line is a
perfectly valid event that would have been returned. -/
theorem claim4_counterexample :
    (streamEventsOp (chars "/s") none
        (fun _ => HttpResponse.mk 200 []
          (chars "\x7b\"a\":1\x7d\n\x7b\"source\":\"s\",\"type\":\"t\"\x7d"))).result =
      .error (.appError (JsonValue.obj [(chars "a", JsonValue.num 1 0)])) ∧
    streamEventsBodyRun (chars "\x7b\"source\":\"s\",\"type\":\"t\"\x7d") =
      ([], .ok [⟨[(chars "source", .str (chars "s")), (chars "type", .str (chars "t")),
                  (chars "specversion", .str (chars "1.0"))]⟩]) :=
  ⟨rfl, rfl⟩

/-- Witness for C4 (amended) at the adapter-rejected object a=1 standing
alone. -/
theorem claim4_witness :
    observeLineJson (chars "\x7b\"a\":1\x7d") = some (JsonValue.obj [(chars "a", JsonValue.num 1 0)]) ∧
    isKeepalive (JsonValue.obj [(chars "a", JsonValue.num 1 0)]) = false ∧
    cloudEventOfJson (JsonValue.obj [(chars "a", JsonValue.num 1 0)]) = none ∧
    observeLineOut (chars "\x7b\"a\":1\x7d") =
      some (ObsOut.ctorError (JsonValue.obj [(chars "a", JsonValue.num 1 0)])) ∧
    linesEvents ([] ++ chars "\x7b\"a\":1\x7d" :: []) = linesEvents [] ++ linesEvents [] ∧
    (streamDecodeLines ([] ++ chars "\x7b\"a\":1\x7d" :: [])).2 =
      .error (JsonValue.obj [(chars "a", JsonValue.num 1 0)]) := by
  have h1 := claim4.1 [] [] (chars "\x7b\"a\":1\x7d")
    (JsonValue.obj [(chars "a", JsonValue.num 1 0)]) rfl rfl rfl
  have h2 := claim4.2 [] [] (chars "\x7b\"a\":1\x7d")
    (JsonValue.obj [(chars "a", JsonValue.num 1 0)]) (by simp) rfl rfl
  exact ⟨rfl, rfl, rfl, h1.1, h1.2, h2⟩

/-! ### Lemmas about line splitting and whitespace stripping -/

/-- The parsed values a list of whole-body lines contributes. -/
def lineVals (ls : List Str) : List JsonValue :=
  ls.filterMap (fun l => json_loads (pystrip l))

theorem lineVals_append (a b : List Str) : lineVals (a ++ b) = lineVals a ++ lineVals b :=
  List.filterMap_append a b _

theorem decodeLines_fst (ls : List Str) : (decodeLines ls).1 = lineVals ls := by
  induction ls with
  | nil => rfl
  | cons l ls ih =>
    by_cases hl : pystrip l = []
    · have h2 : lineVals (l :: ls) = lineVals ls := by
        simp [lineVals, List.filterMap_cons, hl, json_loads_nil]
      rw [h2, ← ih]
      simp [decodeLines, hl]
    · cases hj : json_loads (pystrip l) with
      | none =>
        have h2 : lineVals (l :: ls) = lineVals ls := by
          simp [lineVals, List.filterMap_cons, hj]
        rw [h2, ← ih]
        simp [decodeLines, hl, hj]
      | some v =>
        have h2 : lineVals (l :: ls) = v :: lineVals ls := by
          simp [lineVals, List.filterMap_cons, hj]
        rw [h2, ← ih]
        simp [decodeLines, hl, hj]

theorem splitNl_ne_nil (s : Str) : splitNl s ≠ [] := by
  cases s with
  | nil => simp [splitNl]
  | cons c cs =>
    simp only [splitNl]
    cases h : splitNl cs with
    | nil => simp
    | cons l ls =>
      by_cases hc : c = '\n' <;> simp [hc]

theorem splitNl_append_nl (s r : Str) : splitNl (s ++ '\n' :: r) = splitNl s ++ splitNl r := by
  induction s with
  | nil =>
    cases h : splitNl r with
    | nil => exact absurd h (splitNl_ne_nil r)
    | cons l ls => simp [splitNl, h]
  | cons c cs ih =>
    cases h : splitNl cs with
    | nil => exact absurd h (splitNl_ne_nil cs)
    | cons l ls => by_cases hc : c = '\n' <;> simp [splitNl, ih, h, hc]

theorem splitNl_no_nl (r : Str) (h : ∀ c ∈ r, c ≠ '\n') : splitNl r = [r] := by
  induction r with
  | nil => rfl
  | cons c cs ih =>
    have hc : c ≠ '\n' := h c (List.mem_cons_self c cs)
    have := ih (fun x hx => h x (List.mem_cons_of_mem c hx))
    simp [splitNl, this, hc]

theorem rstrip_ws_cons (c : Char) (x : Str) (hc : pyWs c = true) :
    pystrip (c :: x) = pystrip x := by
  unfold pystrip rstrip
  rw [show (c :: x).reverse = x.reverse ++ [c] by simp]
  rw [List.dropWhile_append]
  by_cases h : (x.reverse.dropWhile pyWs).isEmpty
  · simp [h, List.dropWhile, hc, lstrip, List.isEmpty_iff.mp h]
  · simp only [h, if_false]
    simp [lstrip, List.dropWhile, hc, List.dropWhile_append, h]

theorem rstrip_ws_snoc (c : Char) (x : Str) (hc : pyWs c = true) :
    pystrip (x ++ [c]) = pystrip x := by
  unfold pystrip rstrip
  rw [show (x ++ [c]).reverse = c :: x.reverse by simp]
  simp [List.dropWhile, hc]

theorem lineVals_splitNl_ws_cons (c : Char) (s : Str) (hc : pyWs c = true) :
    lineVals (splitNl (c :: s)) = lineVals (splitNl s) := by
  cases h : splitNl s with
  | nil => exact absurd h (splitNl_ne_nil s)
  | cons l ls =>
    by_cases hnl : c = '\n'
    · simp [splitNl, h, hnl, lineVals, List.filterMap_cons, pystrip, rstrip, lstrip,
        json_loads_nil]
    · simp only [splitNl, h, hnl, if_false]
      simp [lineVals, List.filterMap_cons, rstrip_ws_cons c l hc]

/-- Append a character to the last segment of a non-empty segment list. -/
def appendLast (ls : List Str) (c : Char) : List Str :=
  match ls with
  | [] => [[c]]
  | [l] => [l ++ [c]]
  | l :: rest => l :: appendLast rest c

theorem splitNl_snoc_nl (u : Str) : splitNl (u ++ ['\n']) = splitNl u ++ [[]] := by
  induction u with
  | nil => rfl
  | cons c cs ih =>
    cases h : splitNl cs with
    | nil => exact absurd h (splitNl_ne_nil cs)
    | cons l ls => by_cases hc : c = '\n' <;> simp [splitNl, ih, h, hc]

theorem splitNl_snoc_ch (u : Str) (c : Char) (hc : c ≠ '\n') :
    splitNl (u ++ [c]) = appendLast (splitNl u) c := by
  induction u with
  | nil => simp [splitNl, hc, appendLast]
  | cons d ds ih =>
    cases h : splitNl ds with
    | nil => exact absurd h (splitNl_ne_nil ds)
    | cons l ls =>
      by_cases hd : d = '\n'
      · cases ls <;> simp [hd, hc, appendLast, splitNl, h, ih]
      · cases ls <;> simp [hd, hc, appendLast, splitNl, h, ih]

theorem lineVals_appendLast (ls : List Str) (c : Char) (hc : pyWs c = true) :
    lineVals (appendLast ls c) = lineVals ls := by
  induction ls with
  | nil =>
    have h1 : pystrip [c] = pystrip [] := rstrip_ws_snoc c [] hc
    have h2 : json_loads (pystrip [c]) = none := by rw [h1]; rfl
    simp [appendLast, lineVals, List.filterMap_cons, h2]
  | cons l rest ih =>
    cases rest with
    | nil =>
      simp [appendLast, lineVals, List.filterMap_cons, rstrip_ws_snoc c l hc]
    | cons l2 rest2 =>
      simp only [appendLast]
      simp [lineVals, List.filterMap_cons] at ih ⊢
      rw [ih]

theorem lineVals_splitNl_snoc_ws (u : Str) (c : Char) (hc : pyWs c = true) :
    lineVals (splitNl (u ++ [c])) = lineVals (splitNl u) := by
  by_cases hnl : c = '\n'
  · rw [hnl] at hc ⊢
    rw [splitNl_snoc_nl, lineVals_append]
    simp [lineVals, List.filterMap_cons, pystrip, rstrip, lstrip, json_loads_nil]
  · rw [splitNl_snoc_ch u c hnl, lineVals_appendLast _ _ hc]

theorem lineVals_splitNl_append_ws (u w : Str) (hw : ∀ c ∈ w, pyWs c = true) :
    lineVals (splitNl (u ++ w)) = lineVals (splitNl u) := by
  induction w generalizing u with
  | nil => simp
  | cons c cs ih =>
    have h1 : u ++ c :: cs = (u ++ [c]) ++ cs := by simp
    rw [h1, ih (u ++ [c]) (fun x hx => hw x (List.mem_cons_of_mem c hx)),
      lineVals_splitNl_snoc_ws u c (hw c (List.mem_cons_self c cs))]

theorem lineVals_splitNl_lstrip (u : Str) :
    lineVals (splitNl (lstrip u)) = lineVals (splitNl u) := by
  induction u with
  | nil => rfl
  | cons c cs ih =>
    by_cases hc : pyWs c
    · rw [show lstrip (c :: cs) = lstrip cs by simp [lstrip, List.dropWhile, hc], ih,
        lineVals_splitNl_ws_cons c cs hc]
    · rw [show lstrip (c :: cs) = c :: cs by simp [lstrip, List.dropWhile, hc]]

theorem lineVals_splitNl_rstrip (u : Str) :
    lineVals (splitNl (rstrip u)) = lineVals (splitNl u) := by
  have hdecomp : rstrip u ++ (u.reverse.takeWhile pyWs).reverse = u := by
    unfold rstrip
    rw [← List.reverse_append, List.takeWhile_append_dropWhile, List.reverse_reverse]
  have hws : ∀ c ∈ (u.reverse.takeWhile pyWs).reverse, pyWs c = true := by
    intro c hc
    exact List.mem_takeWhile_imp (List.mem_reverse.mp hc)
  calc lineVals (splitNl (rstrip u))
      = lineVals (splitNl (rstrip u ++ (u.reverse.takeWhile pyWs).reverse)) :=
        (lineVals_splitNl_append_ws _ _ hws).symm
    _ = lineVals (splitNl u) := by rw [hdecomp]

theorem lineVals_splitNl_pystrip (u : Str) :
    lineVals (splitNl (pystrip u)) = lineVals (splitNl u) := by
  unfold pystrip
  rw [lineVals_splitNl_lstrip, lineVals_splitNl_rstrip]

theorem qProcessBody_fst (body : Str) : (qProcessBody body).1 = lineVals (splitNl body) := by
  unfold qProcessBody
  by_cases h : pystrip body = []
  · rw [if_pos h, ← lineVals_splitNl_pystrip, h]
    rfl
  · rw [if_neg h, decodeLines_fst, lineVals_splitNl_pystrip]

/-- C7: at end of input a non-empty remainder not terminated by a newline
is discarded by the streaming decoder of observe_events (it affects
nothing), while the whole-body split of stream_events and q still
processes the final segment after the last newline: its parsed value is
appended to the results, no trailing newline required. -/
theorem claim7 :
    (∀ s t : Str, (∀ c ∈ t, c ≠ '\n') → observeValues [s ++ t] = observeValues [s]) ∧
    (∀ (s r : Str) (v : JsonValue), (∀ c ∈ r, c ≠ '\n') →
      json_loads (pystrip r) = some v →
      (qProcessBody (s ++ '\n' :: r)).1 = (qProcessBody s).1 ++ [v]) := by
  constructor
  · intro s t ht
    unfold observeValues
    rw [observeFeedVals_join [s ++ t] [] (by simp), observeFeedVals_join [s] [] (by simp)]
    simp only [List.flatten_cons, List.flatten_nil, List.nil_append, List.append_nil]
    rw [extractLines_append s t]
    have hb : ∀ c ∈ (extractLines s).2 ++ t, c ≠ '\n' := by
      intro c hc
      rcases List.mem_append.mp hc with h | h
      · exact extractLines_snd_no_nl s c h
      · exact ht c h
    rw [extractLines_no_nl hb]
    simp
  · intro s r v hr hv
    rw [qProcessBody_fst, qProcessBody_fst, splitNl_append_nl, lineVals_append,
      splitNl_no_nl r hr]
    simp [lineVals, List.filterMap_cons, hv]

/-- Witness for C7: the remainder "tail" is discarded by the streaming
decoder, while the whole-body decoder still parses the unterminated final
line containing the object a=2. -/
theorem claim7_witness :
    (∀ c ∈ chars "tail", c ≠ '\n') ∧
    (∀ c ∈ chars "\x7b\"a\":2\x7d", c ≠ '\n') ∧
    json_loads (pystrip (chars "\x7b\"a\":2\x7d")) =
      some (JsonValue.obj [(chars "a", JsonValue.num 2 0)]) ∧
    observeValues [chars "\x7b\"a\":1\x7d\n" ++ chars "tail"] = observeValues [chars "\x7b\"a\":1\x7d\n"] ∧
    (qProcessBody (chars "\x7b\"a\":1\x7d" ++ '\n' :: chars "\x7b\"a\":2\x7d")).1 =
      (qProcessBody (chars "\x7b\"a\":1\x7d")).1 ++ [JsonValue.obj [(chars "a", JsonValue.num 2 0)]] := by
  have h1 : ∀ c ∈ chars "tail", c ≠ '\n' := by decide
  have h2 : ∀ c ∈ chars "\x7b\"a\":2\x7d", c ≠ '\n' := by decide
  exact ⟨h1, h2, rfl, claim7.1 _ _ h1, claim7.2 _ _ _ h2 rfl⟩

/-- C8: for every operation, a non-2xx response makes the call fail with a
transport error carrying the original status code and reason, after
logging it to the error channel; exactly one request reaches the
transport, and the outcome depends only on the first response (no
automatic retry consults a second one). -/
theorem claim8 :
    (∀ (subject query : Str) (options : Option (List (Str × JsonValue)))
        (t : Nat → HttpResponse), is2xx (t 0).status = false →
      streamEventsOp subject options t =
        ⟨1, some (streamRequestBody subject options),
         [.apiError (t 0).status (t 0).reason],
         .error (.httpStatus (t 0).status (t 0).reason)⟩ ∧
      qOp query t =
        ⟨1, some (.obj [(chars "query", .str query)]),
         [.apiError (t 0).status (t 0).reason],
         .error (.httpStatus (t 0).status (t 0).reason)⟩ ∧
      eraseDataOp subject t =
        ⟨1, some (.obj [(chars "subject", .str subject)]),
         [.apiError (t 0).status (t 0).reason],
         .error (.httpStatus (t 0).status (t 0).reason)⟩ ∧
      auditOp t = ⟨1, none, [.apiError (t 0).status (t 0).reason],
         .error (.httpStatus (t 0).status (t 0).reason)⟩ ∧
      pingOp t = ⟨1, none, [.apiError (t 0).status (t 0).reason],
         .error (.httpStatus (t 0).status (t 0).reason)⟩) ∧
    (∀ events pre (t : Nat → HttpResponse) fes, formatEvents events = .ok fes →
      is2xx (t 0).status = false →
      commitEventsOp events pre t =
        ⟨1, some (commitRequestBody fes pre),
         [.apiError (t 0).status (t 0).reason],
         .error (.httpStatus (t 0).status (t 0).reason)⟩) ∧
    (∀ (resp : ObserveResponse) (subject : Str) (options : Option (List (Str × JsonValue))),
      is2xx resp.status = false →
      observeEventsOp subject options resp =
        ⟨1, some (observeRequestBody subject options),
         [.apiError resp.status resp.reason], [],
         some (.httpStatus resp.status resp.reason)⟩) ∧
    (∀ (subject query : Str) (options : Option (List (Str × JsonValue)))
        events pre (t t2 : Nat → HttpResponse), t 0 = t2 0 →
      streamEventsOp subject options t = streamEventsOp subject options t2 ∧
      qOp query t = qOp query t2 ∧
      eraseDataOp subject t = eraseDataOp subject t2 ∧
      auditOp t = auditOp t2 ∧
      pingOp t = pingOp t2 ∧
      commitEventsOp events pre t = commitEventsOp events pre t2) := by
  refine ⟨?_, ?_, ?_, ?_⟩
  · intro subject query options t h
    refine ⟨?_, ?_, ?_, ?_, ?_⟩ <;> simp [streamEventsOp, qOp, eraseDataOp, auditOp, pingOp, h]
  · intro events pre t fes hf h
    simp [commitEventsOp, hf, h]
  · intro resp subject options h
    simp [observeEventsOp, h]
  · intro subject query options events pre t t2 ht
    refine ⟨?_, ?_, ?_, ?_, ?_, ?_⟩ <;>
      simp only [streamEventsOp, qOp, eraseDataOp, auditOp, pingOp, commitEventsOp, ht]

/-- Witness for C8 at a 404 Not Found response. -/
theorem claim8_witness :
    is2xx ((fun _ : Nat => HttpResponse.mk 404 (chars "Not Found") []) 0).status = false ∧
    formatEvents [] = .ok [] ∧
    streamEventsOp [] none (fun _ => HttpResponse.mk 404 (chars "Not Found") []) =
      ⟨1, some (streamRequestBody [] none), [.apiError 404 (chars "Not Found")],
       .error (.httpStatus 404 (chars "Not Found"))⟩ ∧
    commitEventsOp [] none (fun _ => HttpResponse.mk 404 (chars "Not Found") []) =
      ⟨1, some (commitRequestBody [] none), [.apiError 404 (chars "Not Found")],
       .error (.httpStatus 404 (chars "Not Found"))⟩ ∧
    observeEventsOp [] none (ObserveResponse.mk 404 (chars "Not Found") []) =
      ⟨1, some (observeRequestBody [] none), [.apiError 404 (chars "Not Found")], [],
       some (.httpStatus 404 (chars "Not Found"))⟩ ∧
    streamEventsOp [] none (fun _ => HttpResponse.mk 404 (chars "Not Found") []) =
      streamEventsOp [] none (fun _ => HttpResponse.mk 404 (chars "Not Found") []) := by
  have h1 := (claim8.1 [] [] none (fun _ => HttpResponse.mk 404 (chars "Not Found") []) rfl).1
  have h2 := claim8.2.1 [] none (fun _ => HttpResponse.mk 404 (chars "Not Found") []) [] rfl rfl
  have h3 := claim8.2.2.1 (ObserveResponse.mk 404 (chars "Not Found") []) [] none rfl
  have h4 := (claim8.2.2.2 [] [] none [] none
    (fun _ => HttpResponse.mk 404 (chars "Not Found") [])
    (fun _ => HttpResponse.mk 404 (chars "Not Found") []) rfl).1
  exact ⟨rfl, rfl, h1, h2, h3, h4⟩

theorem pyOr_eq_empty {a b : String} (h : pyOr a b = "") : b = "" := by
  unfold pyOr at h
  by_cases ha : a = ""
  · simpa [ha] using h
  · rw [if_neg ha] at h
    exact absurd h ha

theorem resolvedUrl_empty {config : Option PyConfig} {env : String → String}
    (h : resolvedApiUrl config env = "") : env "GENESISDB_API_URL" = "" := by
  unfold resolvedApiUrl at h
  cases config with
  | none => exact h
  | some c => exact pyOr_eq_empty h

theorem resolvedVersion_empty {config : Option PyConfig} {env : String → String}
    (h : resolvedApiVersion config env = "") : env "GENESISDB_API_VERSION" = "" := by
  unfold resolvedApiVersion at h
  cases config with
  | none => exact h
  | some c => exact pyOr_eq_empty h

theorem resolvedToken_empty {config : Option PyConfig} {env : String → String}
    (h : resolvedAuthToken config env = "") : env "GENESISDB_AUTH_TOKEN" = "" := by
  unfold resolvedAuthToken at h
  cases config with
  | none => exact h
  | some c => exact pyOr_eq_empty h

/-- C9 is refuted: with a config supplying the api url "u" and the api
version "v" but no auth token, over an empty environment, the only
missing setting is the auth token, yet the raised error enumerates all
three environment variables, including ones whose settings were supplied
by the config. -/
theorem claim9_counterexample :
    clientInit (some ⟨some "u", some "v", none⟩) (fun _ => "") =
      .error ["GENESISDB_API_URL", "GENESISDB_API_VERSION", "GENESISDB_AUTH_TOKEN"] ∧
    resolvedApiUrl (some ⟨some "u", some "v", none⟩) (fun _ => "") = "u" ∧
    resolvedApiVersion (some ⟨some "u", some "v", none⟩) (fun _ => "") = "v" ∧
    clientInit (some ⟨some "u", some "v", none⟩) (fun _ => "") ≠
      .error ["GENESISDB_AUTH_TOKEN"] := by
  refine ⟨rfl, rfl, rfl, ?_⟩
  intro h
  have h2 : Except.error (ε := List String) (α := String × String × String)
      ["GENESISDB_API_URL", "GENESISDB_API_VERSION", "GENESISDB_AUTH_TOKEN"] =
      .error ["GENESISDB_AUTH_TOKEN"] := h
  simp at h2

/-- C9 (amended): construction fails immediately (raising, never
deferring) exactly when one of the three combined settings has no value,
and the raised error enumerates exactly the required environment
variables that are unset in the environment — a superset of the missing
settings that can also name variables whose settings the explicit config
did supply. -/
theorem claim9 (config : Option PyConfig) (env : String → String) :
    ((resolvedApiUrl config env = "" ∨ resolvedApiVersion config env = "" ∨
        resolvedAuthToken config env = "") ↔
      ∃ l, clientInit config env = .error l) ∧
    (∀ l, clientInit config env = .error l →
      l = requiredEnvVars.filter (fun v2 => env v2 = "")) := by
  constructor
  · constructor
    · intro hcond
      refine ⟨requiredEnvVars.filter (fun v2 => env v2 = ""), ?_⟩
      have hne : ¬ requiredEnvVars.filter (fun v2 => env v2 = "") = [] := by
        intro hempty
        have hmem : ∀ x ∈ requiredEnvVars, env x = "" → False := by
          intro x hx hxe
          have : x ∈ requiredEnvVars.filter (fun v2 => env v2 = "") :=
            List.mem_filter.mpr ⟨hx, by simp [hxe]⟩
          rw [hempty] at this
          exact absurd this (List.not_mem_nil x)
        rcases hcond with h | h | h
        · exact hmem "GENESISDB_API_URL" (by simp [requiredEnvVars]) (resolvedUrl_empty h)
        · exact hmem "GENESISDB_API_VERSION" (by simp [requiredEnvVars]) (resolvedVersion_empty h)
        · exact hmem "GENESISDB_AUTH_TOKEN" (by simp [requiredEnvVars]) (resolvedToken_empty h)
      unfold clientInit
      rw [if_pos hcond, if_neg hne]
    · rintro ⟨l, hl⟩
      unfold clientInit at hl
      by_cases hcond : (resolvedApiUrl config env = "" ∨ resolvedApiVersion config env = "" ∨
          resolvedAuthToken config env = "")
      · exact hcond
      · rw [if_neg hcond] at hl
        exact Except.noConfusion hl
  · intro l hl
    unfold clientInit at hl
    by_cases hcond : (resolvedApiUrl config env = "" ∨ resolvedApiVersion config env = "" ∨
        resolvedAuthToken config env = "")
    · rw [if_pos hcond] at hl
      by_cases hm : requiredEnvVars.filter (fun v2 => env v2 = "") = []
      · rw [if_pos hm] at hl
        exact Except.noConfusion hl
      · rw [if_neg hm] at hl
        cases hl
        rfl
    · rw [if_neg hcond] at hl
      exact Except.noConfusion hl

/-- Witness for C9 (amended): over the empty environment with no config,
initialization fails and the error lists exactly the three unset
variables. -/
theorem claim9_witness :
    clientInit none (fun _ => "") =
      .error ["GENESISDB_API_URL", "GENESISDB_API_VERSION", "GENESISDB_AUTH_TOKEN"] ∧
    ["GENESISDB_API_URL", "GENESISDB_API_VERSION", "GENESISDB_AUTH_TOKEN"] =
      requiredEnvVars.filter (fun v2 => (fun _ : String => "") v2 = "") :=
  ⟨rfl, (claim9 none (fun _ => "")).2
    ["GENESISDB_API_URL", "GENESISDB_API_VERSION", "GENESISDB_AUTH_TOKEN"] rfl⟩

theorem formatEvent_missing (e : List (Str × JsonValue))
    (h : pyLookup (chars "source") e = none ∨ pyLookup (chars "subject") e = none ∨
      pyLookup (chars "type") e = none ∨ pyLookup (chars "data") e = none) :
    ∃ k, formatEvent e = .error (.keyError k) := by
  cases hs : pyLookup (chars "source") e with
  | none => exact ⟨chars "source", by simp [formatEvent, hs]⟩
  | some vs =>
    cases hsub : pyLookup (chars "subject") e with
    | none => exact ⟨chars "subject", by simp [formatEvent, hs, hsub]⟩
    | some vsub =>
      cases ht : pyLookup (chars "type") e with
      | none => exact ⟨chars "type", by simp [formatEvent, hs, hsub, ht]⟩
      | some vt =>
        cases hd : pyLookup (chars "data") e with
        | none => exact ⟨chars "data", by simp [formatEvent, hs, hsub, ht, hd]⟩
        | some vd => rcases h with h | h | h | h <;> simp_all

theorem formatEvent_ok_or_key (e : List (Str × JsonValue))
    (hok : optionsMembershipOk e = true) :
    (∃ fe, formatEvent e = .ok fe) ∨ ∃ k, formatEvent e = .error (.keyError k) := by
  cases hs : pyLookup (chars "source") e with
  | none => exact Or.inr ⟨chars "source", by simp [formatEvent, hs]⟩
  | some vs =>
    cases hsub : pyLookup (chars "subject") e with
    | none => exact Or.inr ⟨chars "subject", by simp [formatEvent, hs, hsub]⟩
    | some vsub =>
      cases ht : pyLookup (chars "type") e with
      | none => exact Or.inr ⟨chars "type", by simp [formatEvent, hs, hsub, ht]⟩
      | some vt =>
        cases hd : pyLookup (chars "data") e with
        | none => exact Or.inr ⟨chars "data", by simp [formatEvent, hs, hsub, ht, hd]⟩
        | some vd =>
          unfold optionsMembershipOk at hok
          cases ho : pyLookup (chars "options") e with
          | none =>
            exact Or.inl ⟨[(chars "source", vs), (chars "subject", vsub),
              (chars "type", vt), (chars "data", vd)],
              by simp [formatEvent, hs, hsub, ht, hd, ho]⟩
          | some vopts =>
            rw [ho] at hok
            cases vopts with
            | obj o =>
              cases hst : pyLookup (chars "store_data_as_reference") o with
              | some v =>
                exact Or.inl ⟨[(chars "source", vs), (chars "subject", vsub),
                  (chars "type", vt), (chars "data", vd),
                  (chars "options", JsonValue.obj [(chars "storeDataAsReference", v)])],
                  by simp [formatEvent, hs, hsub, ht, hd, ho, hst]⟩
              | none =>
                exact Or.inl ⟨[(chars "source", vs), (chars "subject", vsub),
                  (chars "type", vt), (chars "data", vd),
                  (chars "options", JsonValue.obj [])],
                  by simp [formatEvent, hs, hsub, ht, hd, ho, hst]⟩
            | str s =>
              have hnc : strContains (chars "store_data_as_reference") s = false := by
                simpa using hok
              exact Or.inl ⟨[(chars "source", vs), (chars "subject", vsub),
                (chars "type", vt), (chars "data", vd),
                (chars "options", JsonValue.obj [])],
                by simp [formatEvent, hs, hsub, ht, hd, ho, hnc]⟩
            | arr xs =>
              have hna : xs.any (fun x => match x with
                  | .str s2 => s2 = chars "store_data_as_reference"
                  | _ => false) = false := by simpa using hok
              exact Or.inl ⟨[(chars "source", vs), (chars "subject", vsub),
                (chars "type", vt), (chars "data", vd),
                (chars "options", JsonValue.obj [])],
                by simp [formatEvent, hs, hsub, ht, hd, ho, hna]⟩
            | null => simp at hok
            | bool b => simp at hok
            | num m ex => simp at hok
            | nan => simp at hok
            | inf => simp at hok
            | neginf => simp at hok

theorem formatEvents_keyError (events : List (List (Str × JsonValue)))
    (hok : ∀ e ∈ events, optionsMembershipOk e = true)
    (h : ∃ e ∈ events, pyLookup (chars "source") e = none ∨
      pyLookup (chars "subject") e = none ∨ pyLookup (chars "type") e = none ∨
      pyLookup (chars "data") e = none) :
    ∃ k, formatEvents events = .error (.keyError k) := by
  induction events with
  | nil =>
    rcases h with ⟨e, hmem, _⟩
    exact absurd hmem (List.not_mem_nil e)
  | cons e es ih =>
    rcases formatEvent_ok_or_key e (hok e (List.mem_cons_self e es)) with ⟨fe, hf⟩ | ⟨k, hf⟩
    · rcases h with ⟨e2, hmem, hmiss⟩
      rcases List.mem_cons.mp hmem with he | he
      · rcases formatEvent_missing e2 hmiss with ⟨k, hk⟩
        rw [he, hf] at hk
        exact Except.noConfusion hk
      · rcases ih (fun e2 h2 => hok e2 (List.mem_cons_of_mem e h2)) ⟨e2, he, hmiss⟩ with ⟨k, hk⟩
        exact ⟨k, by simp [formatEvents, hf, hk, Except.map]⟩
    · exact ⟨k, by simp [formatEvents, hf]⟩

/-- The shape C10 asserts for one formatted commit event: an object whose
keys are exactly source, subject, type, data (in order) plus options
exactly when the caller set options, carrying the caller's values for the
four required fields. -/
def formattedEventOk (e : List (Str × JsonValue)) (fe : JsonValue) : Prop :=
  ∃ fields, fe = JsonValue.obj fields ∧
    fields.map Prod.fst = [chars "source", chars "subject", chars "type", chars "data"] ++
      (if (pyLookup (chars "options") e).isSome then [chars "options"] else []) ∧
    pyLookup (chars "source") fields = pyLookup (chars "source") e ∧
    pyLookup (chars "subject") fields = pyLookup (chars "subject") e ∧
    pyLookup (chars "type") fields = pyLookup (chars "type") e ∧
    pyLookup (chars "data") fields = pyLookup (chars "data") e

theorem formattedEventOk_base (e : List (Str × JsonValue)) (vs vsub vt vd : JsonValue)
    (hvs : pyLookup (chars "source") e = some vs)
    (hvsub : pyLookup (chars "subject") e = some vsub)
    (hvt : pyLookup (chars "type") e = some vt)
    (hvd : pyLookup (chars "data") e = some vd)
    (hno : pyLookup (chars "options") e = none) :
    formattedEventOk e (JsonValue.obj [(chars "source", vs), (chars "subject", vsub),
      (chars "type", vt), (chars "data", vd)]) := by
  refine ⟨_, rfl, ?_, ?_, ?_, ?_, ?_⟩
  · simp [hno]
  · simp [pyLookup, hvs]
  · simp [pyLookup, (by decide : ¬ (chars "source" = chars "subject")), hvsub]
  · simp [pyLookup, (by decide : ¬ (chars "source" = chars "type")),
      (by decide : ¬ (chars "subject" = chars "type")), hvt]
  · simp [pyLookup, (by decide : ¬ (chars "source" = chars "data")),
      (by decide : ¬ (chars "subject" = chars "data")),
      (by decide : ¬ (chars "type" = chars "data")), hvd]

theorem formattedEventOk_options (e : List (Str × JsonValue)) (vs vsub vt vd : JsonValue)
    (api : List (Str × JsonValue))
    (hvs : pyLookup (chars "source") e = some vs)
    (hvsub : pyLookup (chars "subject") e = some vsub)
    (hvt : pyLookup (chars "type") e = some vt)
    (hvd : pyLookup (chars "data") e = some vd)
    (hsome : (pyLookup (chars "options") e).isSome = true) :
    formattedEventOk e (JsonValue.obj ([(chars "source", vs), (chars "subject", vsub),
      (chars "type", vt), (chars "data", vd)] ++ [(chars "options", JsonValue.obj api)])) := by
  refine ⟨_, rfl, ?_, ?_, ?_, ?_, ?_⟩
  · simp only [hsome]
    rfl
  · simp [pyLookup, hvs]
  · simp [pyLookup, (by decide : ¬ (chars "source" = chars "subject")), hvsub]
  · simp [pyLookup, (by decide : ¬ (chars "source" = chars "type")),
      (by decide : ¬ (chars "subject" = chars "type")), hvt]
  · simp [pyLookup, (by decide : ¬ (chars "source" = chars "data")),
      (by decide : ¬ (chars "subject" = chars "data")),
      (by decide : ¬ (chars "type" = chars "data")), hvd]

theorem formatEvents_complete (events : List (List (Str × JsonValue)))
    (h : ∀ e ∈ events, (pyLookup (chars "source") e).isSome ∧
      (pyLookup (chars "subject") e).isSome ∧ (pyLookup (chars "type") e).isSome ∧
      (pyLookup (chars "data") e).isSome)
    (hok : ∀ e ∈ events, optionsMembershipOk e = true) :
    ∃ fes, formatEvents events = .ok fes ∧
      List.Forall₂ formattedEventOk events fes := by
  induction events with
  | nil => exact ⟨[], rfl, .nil⟩
  | cons e es ih =>
    rcases h e (List.mem_cons_self e es) with ⟨h1, h2, h3, h4⟩
    rcases Option.isSome_iff_exists.mp h1 with ⟨vs, hvs⟩
    rcases Option.isSome_iff_exists.mp h2 with ⟨vsub, hvsub⟩
    rcases Option.isSome_iff_exists.mp h3 with ⟨vt, hvt⟩
    rcases Option.isSome_iff_exists.mp h4 with ⟨vd, hvd⟩
    rcases ih (fun e2 he2 => h e2 (List.mem_cons_of_mem e he2))
      (fun e2 he2 => hok e2 (List.mem_cons_of_mem e he2)) with ⟨fes, hfes, hfor⟩
    have hoke := hok e (List.mem_cons_self e es)
    unfold optionsMembershipOk at hoke
    cases ho : pyLookup (chars "options") e with
    | none =>
      exact ⟨JsonValue.obj [(chars "source", vs), (chars "subject", vsub),
        (chars "type", vt), (chars "data", vd)] :: fes,
        by simp [formatEvents, formatEvent, hvs, hvsub, hvt, hvd, ho, hfes, Except.map],
        List.Forall₂.cons (formattedEventOk_base e vs vsub vt vd hvs hvsub hvt hvd ho) hfor⟩
    | some vopts =>
      rw [ho] at hoke
      have hsome : (pyLookup (chars "options") e).isSome = true := by rw [ho]; rfl
      cases vopts with
      | obj o =>
        cases hst : pyLookup (chars "store_data_as_reference") o with
        | some v =>
          exact ⟨JsonValue.obj ([(chars "source", vs), (chars "subject", vsub),
            (chars "type", vt), (chars "data", vd)] ++
            [(chars "options", JsonValue.obj [(chars "storeDataAsReference", v)])]) :: fes,
            by simp [formatEvents, formatEvent, hvs, hvsub, hvt, hvd, ho, hst, hfes, Except.map],
            List.Forall₂.cons
              (formattedEventOk_options e vs vsub vt vd _ hvs hvsub hvt hvd hsome) hfor⟩
        | none =>
          exact ⟨JsonValue.obj ([(chars "source", vs), (chars "subject", vsub),
            (chars "type", vt), (chars "data", vd)] ++
            [(chars "options", JsonValue.obj [])]) :: fes,
            by simp [formatEvents, formatEvent, hvs, hvsub, hvt, hvd, ho, hst, hfes, Except.map],
            List.Forall₂.cons
              (formattedEventOk_options e vs vsub vt vd _ hvs hvsub hvt hvd hsome) hfor⟩
      | str s =>
        have hnc : strContains (chars "store_data_as_reference") s = false := by
          simpa using hoke
        exact ⟨JsonValue.obj ([(chars "source", vs), (chars "subject", vsub),
          (chars "type", vt), (chars "data", vd)] ++
          [(chars "options", JsonValue.obj [])]) :: fes,
          by simp [formatEvents, formatEvent, hvs, hvsub, hvt, hvd, ho, hnc, hfes, Except.map],
          List.Forall₂.cons
            (formattedEventOk_options e vs vsub vt vd _ hvs hvsub hvt hvd hsome) hfor⟩
      | arr xs =>
        have hna : xs.any (fun x => match x with
            | .str s2 => s2 = chars "store_data_as_reference"
            | _ => false) = false := by simpa using hoke
        exact ⟨JsonValue.obj ([(chars "source", vs), (chars "subject", vsub),
          (chars "type", vt), (chars "data", vd)] ++
          [(chars "options", JsonValue.obj [])]) :: fes,
          by simp [formatEvents, formatEvent, hvs, hvsub, hvt, hvd, ho, hna, hfes, Except.map],
          List.Forall₂.cons
            (formattedEventOk_options e vs vsub vt vd _ hvs hvsub hvt hvd hsome) hfor⟩
      | null => simp at hoke
      | bool b => simp at hoke
      | num m ex => simp at hoke
      | nan => simp at hoke
      | inf => simp at hoke
      | neginf => simp at hoke

/-- C10 (amended): every formatting exception — KeyError on a missing
required key, or the TypeError Python raises at line 166 for a non-dict
options value — aborts commit_events before any request is issued
(zero requests, nothing sent).  When every set options value survives the
membership test, a missing required key yields specifically a KeyError;
and when additionally all four keys are present on every event, exactly
one request is sent whose events carry exactly the four fields plus the
translated options field exactly when set. -/
theorem claim10 :
    (∀ (events : List (List (Str × JsonValue))) (pre : Option (List JsonValue))
        (t : Nat → HttpResponse) (exc : PyExc),
      formatEvents events = .error exc →
      commitEventsOp events pre t = ⟨0, none, [], .error (opErrorOfExc exc)⟩) ∧
    (∀ events pre (t : Nat → HttpResponse),
      (∀ e ∈ events, optionsMembershipOk e = true) →
      (∃ e ∈ events, pyLookup (chars "source") e = none ∨
        pyLookup (chars "subject") e = none ∨ pyLookup (chars "type") e = none ∨
        pyLookup (chars "data") e = none) →
      ∃ k, commitEventsOp events pre t = ⟨0, none, [], .error (.keyError k)⟩) ∧
    (∀ events pre (t : Nat → HttpResponse),
      (∀ e ∈ events, (pyLookup (chars "source") e).isSome ∧
        (pyLookup (chars "subject") e).isSome ∧ (pyLookup (chars "type") e).isSome ∧
        (pyLookup (chars "data") e).isSome) →
      (∀ e ∈ events, optionsMembershipOk e = true) →
      ∃ fes, formatEvents events = .ok fes ∧
        (commitEventsOp events pre t).requests = 1 ∧
        (commitEventsOp events pre t).sent = some (commitRequestBody fes pre) ∧
        List.Forall₂ formattedEventOk events fes) := by
  refine ⟨?_, ?_, ?_⟩
  · intro events pre t exc hexc
    simp [commitEventsOp, hexc]
  · intro events pre t hok h
    rcases formatEvents_keyError events hok h with ⟨k, hk⟩
    exact ⟨k, by simp [commitEventsOp, hk, opErrorOfExc]⟩
  · intro events pre t h hok
    rcases formatEvents_complete events h hok with ⟨fes, hfes, hfor⟩
    refine ⟨fes, hfes, ?_, ?_, hfor⟩ <;>
      by_cases h2 : is2xx (t 0).status <;> simp [commitEventsOp, hfes, h2]

/-- C10 as stated is refuted by an event whose options value is None (a
value the tests never use but the claim's "for every list of event
dictionaries" covers): Python evaluates the membership test of line 166
on it and raises TypeError, not KeyError, before any request.  First
scenario: the event carries all four required keys, yet no request body
is built and nothing is sent — refuting "if all four keys are present on
every event the request body is built".  Second scenario: a later event
lacks every required key, yet the call still raises TypeError (from the
earlier event), not the claimed KeyError. -/
theorem claim10_counterexample :
    formatEvents [[(chars "source", JsonValue.str (chars "s")),
                   (chars "subject", JsonValue.str (chars "/x")),
                   (chars "type", JsonValue.str (chars "t")),
                   (chars "data", JsonValue.null),
                   (chars "options", JsonValue.null)]] = .error .typeError ∧
    commitEventsOp [[(chars "source", JsonValue.str (chars "s")),
                     (chars "subject", JsonValue.str (chars "/x")),
                     (chars "type", JsonValue.str (chars "t")),
                     (chars "data", JsonValue.null),
                     (chars "options", JsonValue.null)]] none
        (fun _ => HttpResponse.mk 200 [] []) = ⟨0, none, [], .error .typeError⟩ ∧
    commitEventsOp [[(chars "source", JsonValue.str (chars "s")),
                     (chars "subject", JsonValue.str (chars "/x")),
                     (chars "type", JsonValue.str (chars "t")),
                     (chars "data", JsonValue.null),
                     (chars "options", JsonValue.null)], []] none
        (fun _ => HttpResponse.mk 200 [] []) = ⟨0, none, [], .error .typeError⟩ ∧
    pyLookup (chars "source") ([] : List (Str × JsonValue)) = none :=
  ⟨rfl, rfl, rfl, rfl⟩

/-- Witness for C10 (amended): a TypeError-raising event sends nothing;
an event missing every key (with no options set anywhere) yields a
KeyError with no request; one complete event is formatted and sent. -/
theorem claim10_witness :
    formatEvents [[(chars "source", JsonValue.null), (chars "subject", JsonValue.null),
                   (chars "type", JsonValue.null), (chars "data", JsonValue.null),
                   (chars "options", JsonValue.bool true)]] = .error PyExc.typeError ∧
    commitEventsOp [[(chars "source", JsonValue.null), (chars "subject", JsonValue.null),
                     (chars "type", JsonValue.null), (chars "data", JsonValue.null),
                     (chars "options", JsonValue.bool true)]] none
        (fun _ => HttpResponse.mk 200 [] []) =
      ⟨0, none, [], .error (opErrorOfExc PyExc.typeError)⟩ ∧
    (∀ e ∈ ([[]] : List (List (Str × JsonValue))), optionsMembershipOk e = true) ∧
    (∃ e ∈ ([[]] : List (List (Str × JsonValue))), pyLookup (chars "source") e = none ∨
      pyLookup (chars "subject") e = none ∨ pyLookup (chars "type") e = none ∨
      pyLookup (chars "data") e = none) ∧
    (∃ k, commitEventsOp [[]] none (fun _ => HttpResponse.mk 200 [] []) =
      ⟨0, none, [], .error (.keyError k)⟩) ∧
    (∀ e ∈ [[(chars "source", JsonValue.str (chars "s")),
             (chars "subject", JsonValue.str (chars "/x")),
             (chars "type", JsonValue.str (chars "t")),
             (chars "data", JsonValue.null)]],
      (pyLookup (chars "source") e).isSome ∧ (pyLookup (chars "subject") e).isSome ∧
      (pyLookup (chars "type") e).isSome ∧ (pyLookup (chars "data") e).isSome) ∧
    (∀ e ∈ [[(chars "source", JsonValue.str (chars "s")),
             (chars "subject", JsonValue.str (chars "/x")),
             (chars "type", JsonValue.str (chars "t")),
             (chars "data", JsonValue.null)]], optionsMembershipOk e = true) ∧
    (∃ fes, formatEvents [[(chars "source", JsonValue.str (chars "s")),
             (chars "subject", JsonValue.str (chars "/x")),
             (chars "type", JsonValue.str (chars "t")),
             (chars "data", JsonValue.null)]] = .ok fes ∧
      (commitEventsOp [[(chars "source", JsonValue.str (chars "s")),
             (chars "subject", JsonValue.str (chars "/x")),
             (chars "type", JsonValue.str (chars "t")),
             (chars "data", JsonValue.null)]] none
          (fun _ => HttpResponse.mk 200 [] [])).requests = 1 ∧
      (commitEventsOp [[(chars "source", JsonValue.str (chars "s")),
             (chars "subject", JsonValue.str (chars "/x")),
             (chars "type", JsonValue.str (chars "t")),
             (chars "data", JsonValue.null)]] none
          (fun _ => HttpResponse.mk 200 [] [])).sent = some (commitRequestBody fes none) ∧
      List.Forall₂ formattedEventOk
        [[(chars "source", JsonValue.str (chars "s")),
          (chars "subject", JsonValue.str (chars "/x")),
          (chars "type", JsonValue.str (chars "t")),
          (chars "data", JsonValue.null)]] fes) := by
  have hm : ∃ e ∈ ([[]] : List (List (Str × JsonValue))), pyLookup (chars "source") e = none ∨
      pyLookup (chars "subject") e = none ∨ pyLookup (chars "type") e = none ∨
      pyLookup (chars "data") e = none := ⟨[], List.mem_cons_self _ _, Or.inl rfl⟩
  have hok0 : ∀ e ∈ ([[]] : List (List (Str × JsonValue))), optionsMembershipOk e = true := by
    intro e he
    rcases List.mem_singleton.mp he with rfl
    rfl
  have hc : ∀ e ∈ [[(chars "source", JsonValue.str (chars "s")),
             (chars "subject", JsonValue.str (chars "/x")),
             (chars "type", JsonValue.str (chars "t")),
             (chars "data", JsonValue.null)]],
      (pyLookup (chars "source") e).isSome ∧ (pyLookup (chars "subject") e).isSome ∧
      (pyLookup (chars "type") e).isSome ∧ (pyLookup (chars "data") e).isSome := by
    intro e he
    rcases List.mem_singleton.mp he with rfl
    refine ⟨rfl, ?_, ?_, ?_⟩ <;> decide
  have hok1 : ∀ e ∈ [[(chars "source", JsonValue.str (chars "s")),
             (chars "subject", JsonValue.str (chars "/x")),
             (chars "type", JsonValue.str (chars "t")),
             (chars "data", JsonValue.null)]], optionsMembershipOk e = true := by
    intro e he
    rcases List.mem_singleton.mp he with rfl
    decide
  exact ⟨rfl,
    claim10.1 [[(chars "source", JsonValue.null), (chars "subject", JsonValue.null),
      (chars "type", JsonValue.null), (chars "data", JsonValue.null),
      (chars "options", JsonValue.bool true)]] none
      (fun _ => HttpResponse.mk 200 [] []) PyExc.typeError rfl,
    hok0, hm,
    claim10.2.1 [[]] none (fun _ => HttpResponse.mk 200 [] []) hok0 hm,
    hc, hok1,
    claim10.2.2 _ none (fun _ => HttpResponse.mk 200 [] []) hc hok1⟩
